import Mathlib

/-!
Verification of the printbox geometry/export core against its specification.

The TypeScript source is shallowly embedded over the rational numbers:
every JS `number` is modelled as a `ℚ` (the claims under scrutiny concern
exact arithmetic such as clamping, flooring, counting and byte layout, not
IEEE-754 rounding), `Math.floor`/`Math.round` become `Int.floor`-based
functions, and the THREE.js mesh objects become plain inductive data.
All definitions follow the source files:
  src/app/components/Scene3DWrapper.tsx   (canonical createBox variant,
                                           calculateMaxSafeBorderRadius)
  src/app/utils/exportUtils.ts            (STL generation)
  the ThreeScene component                 (createCubesForGrid, updateGrid)
The Batch Packager (dedup + archive) has no implementation in the sources,
only a specification; its model is explicitly marked as spec-modelled.
-/

namespace PrintBox

/-- JS Math.floor over ℚ, kept ℚ-valued as in JS. -/
def jsFloor (x : ℚ) : ℚ := ((⌊x⌋ : ℤ) : ℚ)

/-- JS Math.round over ℚ: rounds half toward positive infinity. -/
def jsRound (x : ℚ) : ℚ := ((⌊x + 1 / 2⌋ : ℤ) : ℚ)

/-- JS Math.ceil over ℚ, kept ℚ-valued. -/
def jsCeil (x : ℚ) : ℚ := ((⌈x⌉ : ℤ) : ℚ)

/-!
## Geometry Builder (createBox, Scene3DWrapper.tsx)

Wall-thickness resolution, exactly the statement sequence of the source:
  const calculatedMax = Math.min(width, depth) / 3;
  const maxAllowableThickness = Math.min(calculatedMax, 20);
  const calculatedThickness = Math.min(width, height, depth) * 0.05;
  let thickness = wallThickness !== undefined ? wallThickness : calculatedThickness;
  thickness = Math.max(thickness, 2);
  thickness = Math.round(thickness);
  thickness = Math.min(thickness, Math.floor(maxAllowableThickness));
-/

/-- Maximum allowable wall thickness before the final floor, as in the source. -/
def maxAllowableThickness (width depth : ℚ) : ℚ :=
  min (min width depth / 3) 20

/-- The resolved wall thickness of createBox. `none` models an omitted
`wallThickness` argument (JS `undefined`). -/
def resolveThickness (width height depth : ℚ) (wallThickness : Option ℚ) : ℚ :=
  let calculatedThickness := min (min width height) depth * (5 / 100)
  let t0 := wallThickness.getD calculatedThickness
  let t1 := max t0 2
  let t2 := jsRound t1
  min t2 (jsFloor (maxAllowableThickness width depth))

/-- One THREE.BoxGeometry mesh: box dimensions plus the position assigned
to the mesh inside the group (default position components are 0). -/
structure BoxMesh where
  w : ℚ
  h : ℚ
  d : ℚ
  px : ℚ
  py : ℚ
  pz : ℚ
deriving Repr, DecidableEq

/-- The foot mesh. In the source the cylinder branch builds
`CylinderGeometry(radius, radius, footHeight, 24)` positioned at
`y = -height/2 - footHeight/2`; the other branch extrudes a rounded
rectangle of depth `footHeight`, rotated -90 degrees about X and
positioned at `y = -height/2 - footHeight`. -/
inductive FootGeom where
  | cylinder (radius footHeight posY : ℚ) (radialSegments : ℕ)
  | roundedRect (w d cornerRadius footHeight posY : ℚ)
deriving Repr, DecidableEq

/-- The body of the solid: either the five axis-aligned boxes of the
rectilinear path (bottom, left, right, front, back: floor + 4 walls, no
top), or the rounded path. For the rounded path we record the data the
claims are about: the floor extrusion (its `position.y` and its extrude
depth) and the wall extrusion (its `position.y` and its extrude depth),
whether the inner hole was pushed into the outer shape, and the inner
corner radius. Each extrusion is rotated -90 degrees about X, which maps
extrusion coordinate z ∈ [0, depth] to y ∈ [0, depth] above `position.y`,
so an extrusion occupies the y-interval [posY, posY + extrudeDepth]. -/
inductive BodyGeom where
  | boxes (bottom leftWall rightWall frontWall backWall : BoxMesh)
  | rounded (floorPosY floorExtrudeDepth wallPosY wallExtrudeDepth : ℚ)
      (hasHole : Bool) (innerRadius : ℚ)
deriving Repr, DecidableEq

/-- Result of createBox: the `userData` metadata recorded on the group,
the resolved wall thickness, the validity colouring, the body meshes,
the optional foot mesh and the group position. -/
structure CreateBoxResult where
  isBox : Bool
  dimensions : ℚ × ℚ × ℚ
  borderRadius : ℚ
  thickness : ℚ
  colorGreen : Bool
  body : BodyGeom
  foot : Option FootGeom
  position : ℚ × ℚ × ℚ
deriving Repr, DecidableEq

/-- Shallow embedding of the canonical `createBox` of Scene3DWrapper.tsx
(the variant with userData, safe-max radius clamping, the proportional
inner-radius formula and the optional foot). Being a total Lean function,
it returns a solid for every rational input; the source likewise raises
no exception (all paths only do arithmetic and mesh construction). -/
def createBox (x y z width height depth : ℚ) (wallThickness : Option ℚ)
    (borderRadius : ℚ) (showFoot : Bool) : CreateBoxResult :=
  let thickness := resolveThickness width height depth wallThickness
  let exceedsPrinterBed : Bool :=
    decide (width > 200) || decide (height > 200) || decide (depth > 200)
  let wallTooThin : Bool := decide (thickness < 2)
  let wallTooThick : Bool := decide (thickness > maxAllowableThickness width depth)
  let colorGreen : Bool := !(exceedsPrinterBed || wallTooThin || wallTooThick)
  let smallestDimension := min width depth / 2
  let safeMaxRadius := smallestDimension * (9 / 10)
  let effectiveRadius := min borderRadius safeMaxRadius
  let footHeight := if showFoot then thickness * (3 / 2) else 0
  let footWidth := if showFoot then width - 2 * thickness - 1 else 0
  let footDepth := if showFoot then depth - 2 * thickness - 1 else 0
  let body :=
    if effectiveRadius ≤ 0 then
      BodyGeom.boxes
        ⟨width, thickness, depth, 0, -height / 2 + thickness / 2, 0⟩
        ⟨thickness, height, depth, -width / 2 + thickness / 2, 0, 0⟩
        ⟨thickness, height, depth, width / 2 - thickness / 2, 0, 0⟩
        ⟨width - 2 * thickness, height, thickness, 0, 0, depth / 2 - thickness / 2⟩
        ⟨width - 2 * thickness, height, thickness, 0, 0, -depth / 2 + thickness / 2⟩
    else
      let innerWidth := width - 2 * thickness
      let innerDepth := depth - 2 * thickness
      let hasHole : Bool := decide (innerWidth > 0) && decide (innerDepth > 0)
      let innerRadius :=
        if hasHole then
          let innerWidthProportion := innerWidth / width
          let innerDepthProportion := innerDepth / depth
          let scaleFactor := min innerWidthProportion innerDepthProportion
          max 0 (effectiveRadius * scaleFactor * (9 / 10))
        else 0
      BodyGeom.rounded (-height / 2) thickness (-height / 2 + thickness)
        (height - thickness) hasHole innerRadius
  let foot :=
    if showFoot && decide (footHeight > 0) then
      let footCornerRadius := min footWidth footDepth / 2
      if decide (footWidth ≤ footCornerRadius * 2) && decide (footDepth ≤ footCornerRadius * 2) then
        let radius := min footWidth footDepth / 2
        some (FootGeom.cylinder radius footHeight (-height / 2 - footHeight / 2) 24)
      else
        let adjustedFootWidth := max footWidth (footCornerRadius * 2)
        let adjustedFootDepth := max footDepth (footCornerRadius * 2)
        some (FootGeom.roundedRect adjustedFootWidth adjustedFootDepth footCornerRadius
          footHeight (-height / 2 - footHeight))
    else none
  { isBox := true
    dimensions := (width, height, depth)
    borderRadius := borderRadius
    thickness := thickness
    colorGreen := colorGreen
    body := body
    foot := foot
    position := (x, y, z) }

/-! ### Helper lemmas about the JS arithmetic functions -/

theorem jsFloor_mono {a b : ℚ} (h : a ≤ b) : jsFloor a ≤ jsFloor b := by
  unfold jsFloor
  exact_mod_cast Int.floor_mono h

theorem jsRound_mono {a b : ℚ} (h : a ≤ b) : jsRound a ≤ jsRound b := by
  unfold jsRound
  exact_mod_cast Int.floor_mono (by linarith)

theorem jsFloor_min (a b : ℚ) : jsFloor (min a b) = min (jsFloor a) (jsFloor b) := by
  rcases le_total a b with h | h
  · rw [min_eq_left h, min_eq_left (jsFloor_mono h)]
  · rw [min_eq_right h, min_eq_right (jsFloor_mono h)]

theorem jsRound_two : jsRound 2 = 2 := by
  unfold jsRound
  norm_num

theorem createBox_thickness (x y z w h d : ℚ) (wt : Option ℚ) (br : ℚ) (sf : Bool) :
    (createBox x y z w h d wt br sf).thickness = resolveThickness w h d wt := rfl

/-! ### C1 — wall-thickness bounds -/

/-- C1, as stated, is false: at width = height = depth = 3 with the wall
thickness omitted, the geometry builder resolves thickness 1, violating
the claimed lower bound 2 (the final clamp to floor(min(width,depth)/3)
can undershoot 2 when that floor is below 2). -/
theorem C1_counterexample :
    (createBox 0 0 0 3 3 3 none 0 false).thickness = 1 ∧
    ¬ (2 ≤ (createBox 0 0 0 3 3 3 none 0 false).thickness) := by
  have h : (createBox 0 0 0 3 3 3 none 0 false).thickness = 1 := by
    rw [createBox_thickness]
    unfold resolveThickness maxAllowableThickness jsRound jsFloor
    norm_num [Int.floor_eq_iff]
  exact ⟨h, by rw [h]; norm_num⟩

/-- C1 amended: for all width, height, depth > 0 and any (possibly
omitted) wallThickness input, the resolved thickness t always satisfies
t ≤ min(floor(min(width,depth)/3), 20), and the lower bound 2 ≤ t holds
whenever min(width,depth) ≥ 6 (equivalently floor(min(width,depth)/3) ≥ 2);
the original unconditional lower bound fails below that. -/
theorem C1_thickness_bounds (x y z w h d : ℚ) (wt : Option ℚ) (br : ℚ) (sf : Bool)
    (hw : 0 < w) (hh : 0 < h) (hd : 0 < d) :
    (createBox x y z w h d wt br sf).thickness ≤ min (jsFloor (min w d / 3)) 20 ∧
    (6 ≤ min w d → 2 ≤ (createBox x y z w h d wt br sf).thickness) := by
  rw [createBox_thickness]
  have hfloor : jsFloor (min (min w d / 3) 20) = min (jsFloor (min w d / 3)) 20 := by
    rw [jsFloor_min]
    norm_num [jsFloor]
  have hform : resolveThickness w h d wt =
      min (jsRound (max (wt.getD (min (min w h) d * (5 / 100))) 2))
        (jsFloor (min (min w d / 3) 20)) := rfl
  rw [hform]
  constructor
  · exact le_trans (min_le_right _ _) (le_of_eq hfloor)
  · intro hmin
    have h2a : 2 ≤ jsRound (max (wt.getD (min (min w h) d * (5 / 100))) 2) := by
      have := jsRound_mono (le_max_right (wt.getD (min (min w h) d * (5 / 100))) 2)
      rwa [jsRound_two] at this
    have h2b : 2 ≤ jsFloor (min (min w d / 3) 20) := by
      rw [hfloor]
      refine le_min ?_ (by norm_num)
      have : (2 : ℚ) ≤ min w d / 3 := by linarith
      calc (2 : ℚ) = jsFloor 2 := by norm_num [jsFloor]
        _ ≤ jsFloor (min w d / 3) := jsFloor_mono this
    exact le_min h2a h2b

/-- Witness for C1_thickness_bounds at width = height = depth = 30 with
thickness omitted: both bounds evaluate concretely (t = 2). -/
theorem C1_witness :
    2 ≤ (createBox 0 0 0 30 30 30 none 0 false).thickness ∧
    (createBox 0 0 0 30 30 30 none 0 false).thickness ≤ min (jsFloor (min 30 30 / 3)) 20 :=
  ⟨(C1_thickness_bounds 0 0 0 30 30 30 none 0 false (by norm_num) (by norm_num)
      (by norm_num)).2 (by norm_num),
    (C1_thickness_bounds 0 0 0 30 30 30 none 0 false (by norm_num) (by norm_num)
      (by norm_num)).1⟩

/-! ### Accessors on the builder result -/

/-- True when the body took the rectilinear five-box path. -/
def BodyGeom.isBoxesPath : BodyGeom → Bool
  | .boxes _ _ _ _ _ => true
  | .rounded _ _ _ _ _ _ => false

/-- True when the body took the rounded-extrusion path. -/
def BodyGeom.isRoundedPath : BodyGeom → Bool
  | .boxes _ _ _ _ _ => false
  | .rounded _ _ _ _ _ _ => true

/-- Whether the rounded path pushed the inner hole into the outer shape. -/
def CreateBoxResult.holeBuilt (r : CreateBoxResult) : Bool :=
  match r.body with
  | .boxes _ _ _ _ _ => false
  | .rounded _ _ _ _ hh _ => hh

/-- True when the optional foot is the cylinder primitive. -/
def footIsCylinder : Option FootGeom → Bool
  | some (.cylinder _ _ _ _) => true
  | _ => false

/-- True when the optional foot is the extruded rounded rectangle. -/
def footIsRoundedRect : Option FootGeom → Bool
  | some (.roundedRect _ _ _ _ _) => true
  | _ => false

/-! ### C3 — topology selection -/

/-- Body of createBox on the rectilinear path (effectiveRadius ≤ 0). -/
theorem createBox_body_boxes (x y z w h d : ℚ) (wt : Option ℚ) (br : ℚ) (sf : Bool)
    (hc : min br (min w d / 2 * (9 / 10)) ≤ 0) :
    (createBox x y z w h d wt br sf).body =
      (let t := resolveThickness w h d wt
      BodyGeom.boxes
        ⟨w, t, d, 0, -h / 2 + t / 2, 0⟩
        ⟨t, h, d, -w / 2 + t / 2, 0, 0⟩
        ⟨t, h, d, w / 2 - t / 2, 0, 0⟩
        ⟨w - 2 * t, h, t, 0, 0, d / 2 - t / 2⟩
        ⟨w - 2 * t, h, t, 0, 0, -d / 2 + t / 2⟩) := by
  simp only [createBox, hc, if_true, if_pos hc]

/-- Body of createBox on the rounded path (effectiveRadius > 0), with the
hole flag and inner radius spelled out. -/
theorem createBox_body_rounded (x y z w h d : ℚ) (wt : Option ℚ) (br : ℚ) (sf : Bool)
    (hc : ¬ min br (min w d / 2 * (9 / 10)) ≤ 0) :
    (createBox x y z w h d wt br sf).body =
      (let t := resolveThickness w h d wt
      let hole := decide (w - 2 * t > 0) && decide (d - 2 * t > 0)
      let ir := if hole then
          max 0 (min br (min w d / 2 * (9 / 10)) *
            min ((w - 2 * t) / w) ((d - 2 * t) / d) * (9 / 10))
        else 0
      BodyGeom.rounded (-h / 2) t (-h / 2 + t) (h - t) hole ir) := by
  simp only [createBox, if_neg hc]

/-- C3: exactly one of the two construction paths is taken, selected by
effectiveRadius = min(borderRadius, 0.9 × min(width,depth)/2). When it is
≤ 0 the solid is the five axis-aligned boxes (floor + 4 walls, no top,
with the wall in-plane axes shrunk by 2×thickness exactly as in the
source); when it is > 0 the solid is a floor extrusion of depth
`thickness` occupying the y-interval [-height/2, -height/2 + thickness]
and a wall extrusion of depth `height - thickness` starting at exactly
y = -height/2 + thickness, so the walls sit directly on top of the floor
with no gap and no overlap. -/
theorem C3_topology (x y z w h d : ℚ) (wt : Option ℚ) (br : ℚ) (sf : Bool) :
    ((createBox x y z w h d wt br sf).body.isBoxesPath = true ↔
      min br (min w d / 2 * (9 / 10)) ≤ 0) ∧
    (min br (min w d / 2 * (9 / 10)) ≤ 0 →
      (createBox x y z w h d wt br sf).body =
        (let t := resolveThickness w h d wt
        BodyGeom.boxes
          ⟨w, t, d, 0, -h / 2 + t / 2, 0⟩
          ⟨t, h, d, -w / 2 + t / 2, 0, 0⟩
          ⟨t, h, d, w / 2 - t / 2, 0, 0⟩
          ⟨w - 2 * t, h, t, 0, 0, d / 2 - t / 2⟩
          ⟨w - 2 * t, h, t, 0, 0, -d / 2 + t / 2⟩)) ∧
    (0 < min br (min w d / 2 * (9 / 10)) →
      ∃ hole ir, (createBox x y z w h d wt br sf).body =
        (let t := resolveThickness w h d wt
        BodyGeom.rounded (-h / 2) t (-h / 2 + t) (h - t) hole ir)) := by
  by_cases hc : min br (min w d / 2 * (9 / 10)) ≤ 0
  · have hb := createBox_body_boxes x y z w h d wt br sf hc
    refine ⟨?_, fun _ => hb, fun hlt => absurd hc (not_le.mpr hlt)⟩
    simp [hb, BodyGeom.isBoxesPath, hc]
  · have hb0 := createBox_body_rounded x y z w h d wt br sf hc
    have hb : ∃ hole ir, (createBox x y z w h d wt br sf).body =
        (let t := resolveThickness w h d wt
        BodyGeom.rounded (-h / 2) t (-h / 2 + t) (h - t) hole ir) :=
      ⟨_, _, hb0⟩
    obtain ⟨hole, ir, hb⟩ := hb
    refine ⟨?_, fun hle => absurd hle hc, fun _ => ⟨hole, ir, hb⟩⟩
    simp [hb, BodyGeom.isBoxesPath, hc]

/-- Witness for C3_topology: with borderRadius 0 the rectilinear path is
taken, and with borderRadius 5 on a 30×30×30 box the rounded path is
taken with the wall extrusion starting exactly at the floor top. -/
theorem C3_witness :
    (createBox 0 0 0 30 30 30 (some 2) 0 false).body.isBoxesPath = true ∧
    ∃ hole ir, (createBox 0 0 0 30 30 30 (some 2) 5 false).body =
      (let t := resolveThickness 30 30 30 (some 2)
      BodyGeom.rounded (-30 / 2) t (-30 / 2 + t) (30 - t) hole ir) :=
  ⟨(C3_topology 0 0 0 30 30 30 (some 2) 0 false).1.mpr (by norm_num),
    (C3_topology 0 0 0 30 30 30 (some 2) 5 false).2.2 (by norm_num)⟩

/-! ### C8 — totality and the inner-cavity guard -/

/-- C8: the geometry builder is total — `createBox` is a total function
returning a solid (with its `isBox` tag set) for every rational input,
including zero and negative dimensions, mirroring the exception-free
source; and in the rounded path the hole is built exactly when both
inner-cavity dimensions (outer minus 2 × thickness) are positive, so a
non-positive inner cavity skips hole construction and leaves a solid
floor. -/
theorem C8_total_and_guard (x y z w h d : ℚ) (wt : Option ℚ) (br : ℚ) (sf : Bool) :
    (createBox x y z w h d wt br sf).isBox = true ∧
    ((createBox x y z w h d wt br sf).body.isRoundedPath = true →
      (createBox x y z w h d wt br sf).holeBuilt =
        (decide (w - 2 * resolveThickness w h d wt > 0) &&
          decide (d - 2 * resolveThickness w h d wt > 0))) := by
  constructor
  · simp only [createBox]
  · intro hpath
    by_cases hc : min br (min w d / 2 * (9 / 10)) ≤ 0
    · exfalso
      have hb := createBox_body_boxes x y z w h d wt br sf hc
      simp [CreateBoxResult.holeBuilt, BodyGeom.isRoundedPath, hb] at hpath
    · simp only [CreateBoxResult.holeBuilt, createBox, if_neg hc]

/-- Witness for C8_total_and_guard on a rounded-path input (30×30×30 box,
thickness 2, borderRadius 5): the solid is tagged and the hole guard
evaluates to true since the 26×26 inner cavity is positive. -/
theorem C8_witness :
    (createBox 0 0 0 30 30 30 (some 2) 5 false).isBox = true ∧
    (createBox 0 0 0 30 30 30 (some 2) 5 false).holeBuilt =
      (decide ((30 : ℚ) - 2 * resolveThickness 30 30 30 (some 2) > 0) &&
        decide ((30 : ℚ) - 2 * resolveThickness 30 30 30 (some 2) > 0)) := by
  have h := C8_total_and_guard 0 0 0 30 30 30 (some 2) 5 false
  refine ⟨h.1, h.2 ?_⟩
  have hb := createBox_body_rounded 0 0 0 30 30 30 (some 2) 5 false (by norm_num)
  simp [hb, BodyGeom.isRoundedPath]

/-! ### C9 — foot sub-algorithm -/

/-- Shape of the foot construction of createBox when showFoot is set,
read off the source (guard `showFoot && footHeight > 0`, cylinder test
`footWidth <= footCornerRadius * 2 && footDepth <= footCornerRadius * 2`). -/
theorem createBox_foot (x y z w h d : ℚ) (wt : Option ℚ) (br : ℚ) :
    (createBox x y z w h d wt br true).foot =
      (let t := resolveThickness w h d wt
      let footHeight := t * (3 / 2)
      let fw := w - 2 * t - 1
      let fd := d - 2 * t - 1
      if decide (footHeight > 0) then
        let fcr := min fw fd / 2
        if decide (fw ≤ fcr * 2) && decide (fd ≤ fcr * 2) then
          some (FootGeom.cylinder (min fw fd / 2) footHeight (-h / 2 - footHeight / 2) 24)
        else
          some (FootGeom.roundedRect (max fw (fcr * 2)) (max fd (fcr * 2)) fcr
            footHeight (-h / 2 - footHeight))
      else none) := by
  simp only [createBox, Bool.true_and, if_true]

/-- C9: when showFoot is set and footHeight = 1.5 × thickness is positive,
a foot is always emitted, and it is the cylinder primitive exactly when
footWidth ≤ 2r and footDepth ≤ 2r with r = min(footWidth, footDepth)/2,
where footWidth = width − 2×thickness − 1 and
footDepth = depth − 2×thickness − 1; otherwise it is the extruded
rounded rectangle. -/
theorem C9_foot_selection (x y z w h d : ℚ) (wt : Option ℚ) (br : ℚ)
    (hft : 0 < resolveThickness w h d wt * (3 / 2)) :
    (footIsCylinder (createBox x y z w h d wt br true).foot = true ↔
      (w - 2 * resolveThickness w h d wt - 1 ≤
          2 * (min (w - 2 * resolveThickness w h d wt - 1)
            (d - 2 * resolveThickness w h d wt - 1) / 2) ∧
        d - 2 * resolveThickness w h d wt - 1 ≤
          2 * (min (w - 2 * resolveThickness w h d wt - 1)
            (d - 2 * resolveThickness w h d wt - 1) / 2))) ∧
    (footIsCylinder (createBox x y z w h d wt br true).foot = false →
      footIsRoundedRect (createBox x y z w h d wt br true).foot = true) := by
  rw [createBox_foot]
  set t := resolveThickness w h d wt with hts
  set fw := w - 2 * t - 1 with hfw
  set fd := d - 2 * t - 1 with hfd
  have hguard : decide (t * (3 / 2) > 0) = true := decide_eq_true hft
  by_cases hcyl : fw ≤ min fw fd / 2 * 2 ∧ fd ≤ min fw fd / 2 * 2
  · have hb : (decide (fw ≤ min fw fd / 2 * 2) && decide (fd ≤ min fw fd / 2 * 2)) = true := by
      rw [decide_eq_true hcyl.1, decide_eq_true hcyl.2]
      rfl
    simp only [hguard, if_true, hb]
    constructor
    · constructor
      · intro _
        constructor
        · rw [mul_comm]
          exact hcyl.1
        · rw [mul_comm]
          exact hcyl.2
      · intro _
        simp [footIsCylinder]
    · intro hfalse
      exfalso
      simp [footIsCylinder] at hfalse
  · have hb : (decide (fw ≤ min fw fd / 2 * 2) && decide (fd ≤ min fw fd / 2 * 2)) = false := by
      rcases not_and_or.mp hcyl with hn | hn
      · rw [decide_eq_false hn]
        rfl
      · rw [decide_eq_false hn, Bool.and_false]
    simp only [hguard, if_true, hb]
    constructor
    · constructor
      · intro hcy
        exfalso
        simp [footIsCylinder] at hcy
      · intro hcond
        exfalso
        exact hcyl ⟨by rw [mul_comm] at hcond; exact hcond.1,
          by rw [mul_comm] at hcond; exact hcond.2⟩
    · intro _
      simp [footIsRoundedRect]

/-- Witness for C9_foot_selection: a 30×30×30 box with thickness 2 has
footWidth = footDepth = 25, r = 12.5, so the foot is the cylinder. -/
theorem C9_witness :
    footIsCylinder (createBox 0 0 0 30 30 30 (some 2) 0 true).foot = true := by
  have h := C9_foot_selection 0 0 0 30 30 30 (some 2) 0
    (by norm_num [resolveThickness, maxAllowableThickness, jsRound, jsFloor, Int.floor_eq_iff])
  refine h.1.mpr ?_
  norm_num [resolveThickness, maxAllowableThickness, jsRound, jsFloor, Int.floor_eq_iff]

/-!
## Grid Populator and Constraint Resolver (ThreeScene component)
-/

/-- The grid settings record (the UI-only fields `visible` and `color`
are omitted: the core reads only the numeric/flag fields below). -/
structure GridSettings where
  width : ℚ
  length : ℚ
  height : ℚ
  horizontalDivisions : ℕ
  verticalDivisions : ℕ
  bufferSize : ℚ
  wallThickness : ℚ
  borderRadius : ℚ
  showFoot : Bool
deriving Repr, DecidableEq

/-- Shallow embedding of `createCubesForGrid`: one box per cell over the
y × x × z triple loop, with the per-cell dimensions and positions computed
exactly as in the source. -/
def createCubesForGrid (s : GridSettings) : List CreateBoxResult :=
  let xCellSize := s.width / (s.horizontalDivisions : ℚ)
  let zCellSize := s.length / (s.horizontalDivisions : ℚ)
  let yCellSize := s.height / (s.verticalDivisions : ℚ)
  let halfWidth := s.width / 2
  let halfLength := s.length / 2
  let footHeight := if s.showFoot then s.wallThickness * (3 / 2) else 0
  (List.range s.verticalDivisions).flatMap (fun y =>
    (List.range s.horizontalDivisions).flatMap (fun x =>
      (List.range s.horizontalDivisions).map (fun (z : ℕ) =>
        let footScaleFactor := if s.showFoot then (9 : ℚ) / 10 else 1
        let boxWidth := (xCellSize - 2 * s.bufferSize) * footScaleFactor
        let boxHeight := (yCellSize - 2 * s.bufferSize) * footScaleFactor
        let boxDepth := (zCellSize - 2 * s.bufferSize) * footScaleFactor
        let xPos := ((x : ℚ) + 1 / 2) * xCellSize - halfWidth
        let yPos := ((y : ℚ) + 1 / 2) * yCellSize + (if s.showFoot then footHeight / 2 else 0)
        let zPos := ((z : ℚ) + 1 / 2) * zCellSize - halfLength
        createBox xPos yPos zPos boxWidth boxHeight boxDepth (some s.wallThickness)
          s.borderRadius s.showFoot)))

/-- Dimensions every cell box receives: cell size minus 2 × bufferSize per
axis, times the 0.9 foot-accommodation factor when showFoot is set. -/
def cellBoxDimensions (s : GridSettings) : ℚ × ℚ × ℚ :=
  let footScaleFactor := if s.showFoot then (9 : ℚ) / 10 else 1
  ((s.width / (s.horizontalDivisions : ℚ) - 2 * s.bufferSize) * footScaleFactor,
    (s.height / (s.verticalDivisions : ℚ) - 2 * s.bufferSize) * footScaleFactor,
    (s.length / (s.horizontalDivisions : ℚ) - 2 * s.bufferSize) * footScaleFactor)

/-- The scenario settings named by the specification. -/
def scenarioSettings : GridSettings :=
  { width := 100, length := 100, height := 50, horizontalDivisions := 2,
    verticalDivisions := 1, bufferSize := 1, wallThickness := 2,
    borderRadius := 1, showFoot := false }

theorem createBox_dimensions (x y z w h d : ℚ) (wt : Option ℚ) (br : ℚ) (sf : Bool) :
    (createBox x y z w h d wt br sf).dimensions = (w, h, d) := rfl

theorem length_flatMap_const {α β : Type} (l : List α) (f : α → List β) (n : ℕ)
    (h : ∀ a ∈ l, (f a).length = n) : (l.flatMap f).length = l.length * n := by
  induction l with
  | nil => simp
  | cons a t ih =>
    rw [List.flatMap_cons, List.length_append, h a (List.mem_cons_self a t),
      ih (fun b hb => h b (List.mem_cons_of_mem a hb)), List.length_cons]
    ring

/-! ### C5 — grid population -/

/-- C5, as stated, is false in its scenario figures: the first solid of
the spec scenario (width=100, length=100, height=50,
horizontalDivisions=2, verticalDivisions=1, bufferSize=1, showFoot=false)
has dimensions (48, 48, 48) — cell 50 minus 2 × 1 buffer on every axis —
whereas the claim asserts dimensions ≈ {width:49, height:50, depth:49};
the height differs from the claimed 50 by 2, beyond any rounding
tolerance of half a millimetre. -/
theorem C5_counterexample :
    ((createCubesForGrid scenarioSettings).head?.map CreateBoxResult.dimensions =
      some (48, 48, 48)) ∧
    ¬(|(48 : ℚ) - 50| ≤ 1 / 2) := by
  constructor
  · simp only [createCubesForGrid, scenarioSettings]
    norm_num [List.range_succ, createBox_dimensions]
  · norm_num [abs_sub_comm]

/-- C5 amended: for every grid settings value the populator creates
exactly horizontalDivisions × verticalDivisions × horizontalDivisions
box solids, each with dimensions equal to the cell size minus
2 × bufferSize per axis (times 0.9 per axis when showFoot is set); in
the spec scenario this yields 4 solids of dimensions exactly
{width:48, height:48, depth:48} (not ≈ {49, 50, 49}). -/
theorem C5_grid_populate :
    (∀ s : GridSettings,
      (createCubesForGrid s).length =
        s.horizontalDivisions * s.verticalDivisions * s.horizontalDivisions ∧
      ∀ b ∈ createCubesForGrid s, b.dimensions = cellBoxDimensions s) ∧
    (createCubesForGrid scenarioSettings).length = 4 ∧
    ∀ b ∈ createCubesForGrid scenarioSettings,
      b.dimensions = ((48 : ℚ), (48 : ℚ), (48 : ℚ)) := by
  have hmain : ∀ s : GridSettings,
      (createCubesForGrid s).length =
        s.horizontalDivisions * s.verticalDivisions * s.horizontalDivisions ∧
      ∀ b ∈ createCubesForGrid s, b.dimensions = cellBoxDimensions s := by
    intro s
    constructor
    · have hlen : (createCubesForGrid s).length =
          s.verticalDivisions * (s.horizontalDivisions * s.horizontalDivisions) := by
        unfold createCubesForGrid
        rw [length_flatMap_const _ _ (s.horizontalDivisions * s.horizontalDivisions)
          (fun y _ => ?_), List.length_range]
        rw [length_flatMap_const _ _ s.horizontalDivisions (fun x _ => ?_),
          List.length_range]
        rw [List.length_map, List.length_range]
      rw [hlen]
      ring
    · intro b hb
      simp only [createCubesForGrid, List.mem_flatMap, List.mem_map,
        List.mem_range] at hb
      obtain ⟨y, -, x, -, z, -, rfl⟩ := hb
      rfl
  refine ⟨hmain, ?_, ?_⟩
  · rw [(hmain scenarioSettings).1]
    rfl
  · intro b hb
    rw [(hmain scenarioSettings).2 b hb]
    simp only [cellBoxDimensions, scenarioSettings]
    norm_num

/-- Witness for C5_grid_populate evaluated at the scenario settings:
4 solids, first one with dimensions (48, 48, 48). -/
theorem C5_witness :
    (createCubesForGrid scenarioSettings).length = 4 ∧
    ((createCubesForGrid scenarioSettings).head?.map CreateBoxResult.dimensions =
      some ((48 : ℚ), (48 : ℚ), (48 : ℚ))) := by
  refine ⟨C5_grid_populate.2.1, ?_⟩
  have hlen := C5_grid_populate.2.1
  cases hl : (createCubesForGrid scenarioSettings) with
  | nil => rw [hl] at hlen; simp at hlen
  | cons b rest =>
    have hmem : b ∈ createCubesForGrid scenarioSettings := by
      rw [hl]; exact List.mem_cons_self b rest
    have := C5_grid_populate.2.2 b hmem
    simp [this]

/-!
## Constraint Resolver (calculateMaxSafeBorderRadius and updateGrid)
-/

/-- Shallow embedding of `calculateMaxSafeBorderRadius` of
Scene3DWrapper.tsx. -/
def calculateMaxSafeBorderRadius (width depth wallThickness : ℚ) : ℚ :=
  let smallestDimension := min width depth / 2
  let safeMaxRadius := max 0 (smallestDimension * (9 / 10) - wallThickness)
  jsFloor safeMaxRadius

/-- Shallow embedding of the constraint-resolution part of `updateGrid`:
compute the per-cell box width/depth, clamp the wall thickness into
[2, min(floor(min(boxWidth,boxDepth)/3), 20)] (rounding first), then clamp
the border radius into [its value, maxSafeBorderRadius] using the
already-adjusted thickness. The scene-graph bookkeeping of updateGrid is
external and not modelled. -/
def updateGridResolve (s : GridSettings) : GridSettings :=
  let xCellSize := s.width / (s.horizontalDivisions : ℚ)
  let zCellSize := s.length / (s.horizontalDivisions : ℚ)
  let boxWidth := xCellSize - 2 * s.bufferSize
  let boxDepth := zCellSize - 2 * s.bufferSize
  let calculatedMax := jsFloor (min boxWidth boxDepth / 3)
  let maxWallThicknessForCell := min calculatedMax 20
  let adjustedThickness := min (max (jsRound s.wallThickness) 2) maxWallThicknessForCell
  let maxSafe := calculateMaxSafeBorderRadius boxWidth boxDepth adjustedThickness
  let safeRadius := min s.borderRadius maxSafe
  { s with wallThickness := adjustedThickness, borderRadius := safeRadius }

/-! ### C7 — border-radius invariant -/

/-- C7: calculateMaxSafeBorderRadius equals
floor(max(0, 0.9 × min(boxWidth,boxDepth)/2 − wallThickness)), is always
nonnegative, and after every settings update processed by updateGrid the
applied borderRadius is at most
calculateMaxSafeBorderRadius(boxWidth, boxDepth, adjustedWallThickness),
the bound being computed from the already-resolved wall thickness. -/
theorem C7_border_radius_invariant :
    (∀ w d t : ℚ,
      calculateMaxSafeBorderRadius w d t =
        jsFloor (max 0 ((9 / 10) * (min w d / 2) - t)) ∧
      0 ≤ calculateMaxSafeBorderRadius w d t) ∧
    (∀ s : GridSettings,
      (updateGridResolve s).borderRadius ≤
        calculateMaxSafeBorderRadius
          (s.width / (s.horizontalDivisions : ℚ) - 2 * s.bufferSize)
          (s.length / (s.horizontalDivisions : ℚ) - 2 * s.bufferSize)
          ((updateGridResolve s).wallThickness)) := by
  constructor
  · intro w d t
    constructor
    · simp only [calculateMaxSafeBorderRadius]
      ring_nf
    · simp only [calculateMaxSafeBorderRadius, jsFloor]
      have h0 : (0 : ℚ) ≤ max 0 (min w d / 2 * (9 / 10) - t) := le_max_left _ _
      exact_mod_cast Int.floor_nonneg.mpr h0
  · intro s
    simp only [updateGridResolve]
    exact min_le_right _ _

/-!
## Mesh Exporter (exportUtils.ts)

The exporter walks a tree of meshes; we model the object as the list of
its meshes in traversal order. Each mesh carries a buffer geometry
(indexed or non-indexed position list) and its world matrix, modelled by
its affine action on points. `Vector3.normalize` divides by the euclidean
length — a positive scalar not representable in ℚ — so emitted normals
are recorded as the pre-normalization direction vector
`cross(c - b, a - b)`; normalization preserves this direction.
-/

/-- THREE.Vector3 over ℚ. -/
structure Vec3 where
  x : ℚ
  y : ℚ
  z : ℚ
deriving Repr, DecidableEq

/-- Component-wise subtraction (THREE subVectors). -/
def Vec3.sub (a b : Vec3) : Vec3 := ⟨a.x - b.x, a.y - b.y, a.z - b.z⟩

/-- Cross product (THREE crossVectors). -/
def Vec3.cross (a b : Vec3) : Vec3 :=
  ⟨a.y * b.z - a.z * b.y, a.z * b.x - a.x * b.z, a.x * b.y - a.y * b.x⟩

/-- Squared length (THREE lengthSq). -/
def Vec3.lengthSq (a : Vec3) : ℚ := a.x * a.x + a.y * a.y + a.z * a.z

/-- A triangle with its three vertices in emission order. -/
structure Tri where
  a : Vec3
  b : Vec3
  c : Vec3
deriving Repr, DecidableEq

/-- The affine action of a THREE.Matrix4 on points (applyMatrix4 for a
matrix whose last row is 0 0 0 1): row-major linear part plus translation. -/
structure Affine where
  m11 : ℚ
  m12 : ℚ
  m13 : ℚ
  m21 : ℚ
  m22 : ℚ
  m23 : ℚ
  m31 : ℚ
  m32 : ℚ
  m33 : ℚ
  tx : ℚ
  ty : ℚ
  tz : ℚ
deriving Repr, DecidableEq

/-- Apply the affine transform to a point. -/
def Affine.apply (t : Affine) (v : Vec3) : Vec3 :=
  ⟨t.m11 * v.x + t.m12 * v.y + t.m13 * v.z + t.tx,
    t.m21 * v.x + t.m22 * v.y + t.m23 * v.z + t.ty,
    t.m31 * v.x + t.m32 * v.y + t.m33 * v.z + t.tz⟩

/-- The identity world matrix. -/
def Affine.idTransform : Affine := ⟨1, 0, 0, 0, 1, 0, 0, 0, 1, 0, 0, 0⟩

/-- A BufferGeometry: either an indexed triangle list (position attribute
plus index attribute) or a non-indexed one (position triples). -/
inductive BufferGeometry where
  | indexed (positions : List Vec3) (index : List ℕ)
  | nonIndexed (positions : List Vec3)
deriving Repr, DecidableEq

/-- A mesh of the traversed object. -/
structure Mesh where
  geometry : BufferGeometry
  matrixWorld : Affine
deriving Repr, DecidableEq

/-- Groups a flat attribute list into consecutive triples, mirroring the
source loops `for (i = 0; i < count; i += 3)` that read entries i, i+1,
i+2 (a trailing incomplete group is never read by a well-formed loop). -/
def chunk3 {α : Type} : List α → List (α × α × α)
  | a :: b :: c :: rest => (a, b, c) :: chunk3 rest
  | _ => []

/-- The triangles of a geometry, in loop order. Out-of-range indices read
the default zero vector (the source would read undefined). -/
def BufferGeometry.triangles : BufferGeometry → List Tri
  | .indexed positions index =>
      (chunk3 index).map (fun g =>
        ⟨positions.getD g.1 ⟨0, 0, 0⟩, positions.getD g.2.1 ⟨0, 0, 0⟩,
          positions.getD g.2.2 ⟨0, 0, 0⟩⟩)
  | .nonIndexed positions =>
      (chunk3 positions).map (fun g => ⟨g.1, g.2.1, g.2.2⟩)

/-- The pre-skip triangle count of one geometry, as in the counting pass
of generateBinarySTL: `index.count / 3` for indexed geometries and
`position.count / 3` otherwise. -/
def BufferGeometry.triCount : BufferGeometry → ℕ
  | .indexed _ index => index.length / 3
  | .nonIndexed positions => positions.length / 3

/-- The world-space triangles of a mesh: each vertex read from the
attribute and transformed by matrixWorld. -/
def Mesh.worldTris (m : Mesh) : List Tri :=
  m.geometry.triangles.map (fun t =>
    ⟨m.matrixWorld.apply t.a, m.matrixWorld.apply t.b, m.matrixWorld.apply t.c⟩)

/-- The pre-skip triangle count of the whole object (the first traversal
of generateBinarySTL). -/
def countTriangles (obj : List Mesh) : ℕ :=
  obj.foldl (fun acc m => acc + m.geometry.triCount) 0

/-- Direction of the face normal computed by the source:
`cross(c - b, a - b)`, before normalization. -/
def faceNormalDir (t : Tri) : Vec3 := Vec3.cross (t.c.sub t.b) (t.a.sub t.b)

/-- The degenerate-triangle test of writeTriangleToSTL:
`cross(b - a, c - a).lengthSq() < 1e-10`. -/
def Tri.degenerate (t : Tri) : Bool :=
  decide (((t.b.sub t.a).cross (t.c.sub t.a)).lengthSq < 1 / 10 ^ 10)

/-- One primitive DataView write: its byte position and width. -/
structure WriteOp where
  pos : ℕ
  size : ℕ
deriving Repr, DecidableEq

/-- The 50-byte payload of one emitted binary STL triangle record
(12-byte normal, 36 bytes of vertices, 2-byte attribute count). -/
structure STLRecord where
  normalDir : Vec3
  a : Vec3
  b : Vec3
  c : Vec3
  attrib : ℕ
deriving Repr, DecidableEq

/-- The BinaryWriter of the source: a running offset, plus the
observation log of every primitive write and of every complete triangle
record emitted. -/
structure BinaryWriter where
  offset : ℕ
  ops : List WriteOp
  records : List STLRecord
deriving Repr, DecidableEq

/-- setFloat32 at the current offset, then advance by 4. -/
def BinaryWriter.writeFloat32 (w : BinaryWriter) (_v : ℚ) : BinaryWriter :=
  { w with offset := w.offset + 4, ops := w.ops ++ [⟨w.offset, 4⟩] }

/-- setUint16 at the current offset, then advance by 2. -/
def BinaryWriter.writeUint16 (w : BinaryWriter) (_v : ℕ) : BinaryWriter :=
  { w with offset := w.offset + 2, ops := w.ops ++ [⟨w.offset, 2⟩] }

/-- setUint32 at the current offset, then advance by 4. -/
def BinaryWriter.writeUint32 (w : BinaryWriter) (_v : ℕ) : BinaryWriter :=
  { w with offset := w.offset + 4, ops := w.ops ++ [⟨w.offset, 4⟩] }

/-- writeTriangleToSTL: skip the triangle when the degenerate test fires,
otherwise write normal (3 floats), vertices (9 floats) and the attribute
count (1 uint16), recording the emitted record. -/
def writeTriangleToSTL (w : BinaryWriter) (normal a b c : Vec3) : BinaryWriter :=
  let ab := b.sub a
  let ac := c.sub a
  let cr := ab.cross ac
  if cr.lengthSq < 1 / 10 ^ 10 then w
  else
    let w1 := w.writeFloat32 normal.x
    let w2 := w1.writeFloat32 normal.y
    let w3 := w2.writeFloat32 normal.z
    let w4 := w3.writeFloat32 a.x
    let w5 := w4.writeFloat32 a.y
    let w6 := w5.writeFloat32 a.z
    let w7 := w6.writeFloat32 b.x
    let w8 := w7.writeFloat32 b.y
    let w9 := w8.writeFloat32 b.z
    let w10 := w9.writeFloat32 c.x
    let w11 := w10.writeFloat32 c.y
    let w12 := w11.writeFloat32 c.z
    let w13 := w12.writeUint16 0
    { w13 with records := w13.records ++ [⟨normal, a, b, c, 0⟩] }

/-- The observable outcome of generateBinarySTL: the value written into
the 4-byte count field, the allocated buffer size, the final writer
offset (= bytes written), the write log, the emitted records, and the
length of the returned `buffer.slice(0, offset)` byte array. -/
structure STLBinaryResult where
  countField : ℕ
  allocSize : ℕ
  finalOffset : ℕ
  ops : List WriteOp
  records : List STLRecord
  returnedLength : ℕ
deriving Repr, DecidableEq

/-- The body of the triangle-writing loop of generateBinarySTL: compute
the normalized normal direction and hand the triangle to
writeTriangleToSTL. -/
def stepWrite (w : BinaryWriter) (t : Tri) : BinaryWriter :=
  writeTriangleToSTL w (faceNormalDir t) t.a t.b t.c

/-- Shallow embedding of generateBinarySTL: count triangles, allocate
with the 2× safety factor, write the 80 header bytes and the pre-skip
triangle count, then traverse all triangles through writeTriangleToSTL
(with the normalized `cross(c - b, a - b)` normal), and return the buffer
sliced to the bytes written. -/
def generateBinarySTL (obj : List Mesh) : STLBinaryResult :=
  let triangles := countTriangles obj
  let safeTriangleCount := (⌈(triangles : ℚ) * 2⌉).toNat
  let bufferSize := 84 + 50 * safeTriangleCount
  let headerOps := (List.range 80).map (fun i => (⟨i, 1⟩ : WriteOp))
  let w0 : BinaryWriter := ⟨80, headerOps, []⟩
  let w1 := w0.writeUint32 triangles
  let wend := (obj.flatMap Mesh.worldTris).foldl stepWrite w1
  { countField := triangles
    allocSize := bufferSize
    finalOffset := wend.offset
    ops := wend.ops
    records := wend.records
    returnedLength := min wend.offset bufferSize }

/-- One facet of the ASCII output. -/
structure ASCIIFacet where
  normalDir : Vec3
  a : Vec3
  b : Vec3
  c : Vec3
deriving Repr, DecidableEq

/-- Shallow embedding of generateASCIISTL: every triangle of every mesh
is written as a facet with the normalized `cross(c - b, a - b)` normal;
the source has no degenerate-triangle test on this path. -/
def generateASCIISTL (obj : List Mesh) : List ASCIIFacet :=
  (obj.flatMap Mesh.worldTris).map (fun t => ⟨faceNormalDir t, t.a, t.b, t.c⟩)

/-- The triangles that survive the binary skip rule (post-skip). -/
def emittedTris (obj : List Mesh) : List Tri :=
  (obj.flatMap Mesh.worldTris).filter (fun t => !t.degenerate)

/-! ### Structural lemmas about the exporter -/

theorem chunk3_length {α : Type} : ∀ l : List α, (chunk3 l).length = l.length / 3
  | [] => by simp [chunk3]
  | [_] => by simp [chunk3]
  | [_, _] => by simp [chunk3]
  | a :: b :: c :: rest => by
    have ih := chunk3_length rest
    simp only [chunk3, List.length_cons, ih]
    omega

theorem BufferGeometry.length_triangles (g : BufferGeometry) :
    g.triangles.length = g.triCount := by
  cases g with
  | indexed positions index =>
    simp [BufferGeometry.triangles, BufferGeometry.triCount, chunk3_length]
  | nonIndexed positions =>
    simp [BufferGeometry.triangles, BufferGeometry.triCount, chunk3_length]

theorem Mesh.length_worldTris (m : Mesh) : m.worldTris.length = m.geometry.triCount := by
  simp [Mesh.worldTris, BufferGeometry.length_triangles]

theorem countTriangles_acc (l : List Mesh) :
    ∀ acc : ℕ, l.foldl (fun a m => a + m.geometry.triCount) acc =
      acc + (l.map (fun m => m.geometry.triCount)).sum := by
  induction l with
  | nil => intro acc; simp
  | cons m rest ih =>
    intro acc
    rw [List.foldl_cons, ih, List.map_cons, List.sum_cons]
    ring

theorem length_flatMap_worldTris (obj : List Mesh) :
    (obj.flatMap Mesh.worldTris).length = countTriangles obj := by
  rw [List.length_flatMap]
  unfold countTriangles
  rw [countTriangles_acc, Nat.zero_add]
  have hmaps : List.map (List.length ∘ Mesh.worldTris) obj =
      List.map (fun m => m.geometry.triCount) obj :=
    List.map_congr_left (fun m _ => Mesh.length_worldTris m)
  rw [hmaps]

theorem stepWrite_offset (w : BinaryWriter) (t : Tri) :
    (stepWrite w t).offset = w.offset + (if t.degenerate then 0 else 50) := by
  by_cases hd : t.degenerate
  · simp only [stepWrite, writeTriangleToSTL, if_pos (of_decide_eq_true hd), hd, if_true,
      Nat.add_zero]
  · rw [Bool.not_eq_true] at hd
    have hn : ¬ ((t.b.sub t.a).cross (t.c.sub t.a)).lengthSq < 1 / 10 ^ 10 :=
      of_decide_eq_false hd
    simp only [stepWrite, writeTriangleToSTL, if_neg hn, hd,
      BinaryWriter.writeFloat32, BinaryWriter.writeUint16, Bool.false_eq_true, if_false]

theorem stepWrite_records (w : BinaryWriter) (t : Tri) :
    (stepWrite w t).records = w.records ++
      (if t.degenerate then [] else [⟨faceNormalDir t, t.a, t.b, t.c, 0⟩]) := by
  by_cases hd : t.degenerate
  · simp only [stepWrite, writeTriangleToSTL, if_pos (of_decide_eq_true hd), hd, if_true,
      List.append_nil]
  · rw [Bool.not_eq_true] at hd
    have hn : ¬ ((t.b.sub t.a).cross (t.c.sub t.a)).lengthSq < 1 / 10 ^ 10 :=
      of_decide_eq_false hd
    simp only [stepWrite, writeTriangleToSTL, if_neg hn, hd,
      BinaryWriter.writeFloat32, BinaryWriter.writeUint16, Bool.false_eq_true, if_false]

theorem stepWrite_ops (w : BinaryWriter) (t : Tri) :
    ∃ δ, (stepWrite w t).ops = w.ops ++ δ ∧
      ∀ op ∈ δ, w.offset ≤ op.pos ∧ op.pos + op.size ≤ (stepWrite w t).offset := by
  by_cases hd : t.degenerate
  · refine ⟨[], ?_, by simp⟩
    simp only [stepWrite, writeTriangleToSTL, if_pos (of_decide_eq_true hd),
      List.append_nil]
  · rw [Bool.not_eq_true] at hd
    have hn : ¬ ((t.b.sub t.a).cross (t.c.sub t.a)).lengthSq < 1 / 10 ^ 10 :=
      of_decide_eq_false hd
    have hoff : (stepWrite w t).offset = w.offset + 50 := by
      rw [stepWrite_offset, hd]
      simp
    refine ⟨[⟨w.offset, 4⟩, ⟨w.offset + 4, 4⟩, ⟨w.offset + 8, 4⟩, ⟨w.offset + 12, 4⟩,
      ⟨w.offset + 16, 4⟩, ⟨w.offset + 20, 4⟩, ⟨w.offset + 24, 4⟩, ⟨w.offset + 28, 4⟩,
      ⟨w.offset + 32, 4⟩, ⟨w.offset + 36, 4⟩, ⟨w.offset + 40, 4⟩, ⟨w.offset + 44, 4⟩,
      ⟨w.offset + 48, 2⟩], ?_, ?_⟩
    · simp only [stepWrite, writeTriangleToSTL, if_neg hn,
        BinaryWriter.writeFloat32, BinaryWriter.writeUint16]
      simp [List.append_assoc]
    · intro op hop
      rw [hoff]
      fin_cases hop <;> simp

theorem foldWrite_spec (l : List Tri) :
    ∀ w : BinaryWriter,
      (l.foldl stepWrite w).offset =
        w.offset + 50 * (l.filter (fun t => !t.degenerate)).length ∧
      (l.foldl stepWrite w).records =
        w.records ++ (l.filter (fun t => !t.degenerate)).map
          (fun t => ⟨faceNormalDir t, t.a, t.b, t.c, 0⟩) ∧
      ∃ δ, (l.foldl stepWrite w).ops = w.ops ++ δ ∧
        ∀ op ∈ δ, w.offset ≤ op.pos ∧ op.pos + op.size ≤ (l.foldl stepWrite w).offset := by
  induction l with
  | nil => intro w; simp
  | cons t rest ih =>
    intro w
    rw [List.foldl_cons]
    obtain ⟨ihoff, ihrec, δr, ihops, ihbound⟩ := ih (stepWrite w t)
    have hoff1 := stepWrite_offset w t
    have hmono : w.offset ≤ (stepWrite w t).offset := by
      rw [hoff1]
      omega
    obtain ⟨δ1, hops1, hbound1⟩ := stepWrite_ops w t
    by_cases hd : t.degenerate
    · have hfil : (t :: rest).filter (fun t => !t.degenerate) =
          rest.filter (fun t => !t.degenerate) := by
        simp [List.filter_cons, hd]
      refine ⟨?_, ?_, ?_⟩
      · rw [ihoff, hoff1, hd, hfil]
        simp
      · rw [ihrec, stepWrite_records, hd, hfil]
        simp
      · refine ⟨δ1 ++ δr, ?_, ?_⟩
        · rw [ihops, hops1, List.append_assoc]
        · intro op hop
          rcases List.mem_append.mp hop with h1 | h1
          · have hb := hbound1 op h1
            have : (stepWrite w t).offset ≤ (rest.foldl stepWrite (stepWrite w t)).offset := by
              rw [ihoff]
              omega
            exact ⟨hb.1, le_trans hb.2 this⟩
          · have hb := ihbound op h1
            exact ⟨le_trans hmono hb.1, hb.2⟩
    · rw [Bool.not_eq_true] at hd
      have hfil : (t :: rest).filter (fun t => !t.degenerate) =
          t :: rest.filter (fun t => !t.degenerate) := by
        simp [List.filter_cons, hd]
      refine ⟨?_, ?_, ?_⟩
      · rw [ihoff, hoff1, hd, hfil]
        simp only [List.length_cons, Bool.false_eq_true, if_false]
        ring
      · rw [ihrec, stepWrite_records, hd, hfil]
        simp [List.append_assoc]
      · refine ⟨δ1 ++ δr, ?_, ?_⟩
        · rw [ihops, hops1, List.append_assoc]
        · intro op hop
          rcases List.mem_append.mp hop with h1 | h1
          · have hb := hbound1 op h1
            have : (stepWrite w t).offset ≤ (rest.foldl stepWrite (stepWrite w t)).offset := by
              rw [ihoff]
              omega
            exact ⟨hb.1, le_trans hb.2 this⟩
          · have hb := ihbound op h1
            exact ⟨le_trans hmono hb.1, hb.2⟩

theorem emittedTris_length_le (obj : List Mesh) :
    (emittedTris obj).length ≤ countTriangles obj := by
  rw [← length_flatMap_worldTris]
  exact List.length_filter_le _ _

theorem generateBinarySTL_spec (obj : List Mesh) :
    (generateBinarySTL obj).countField = countTriangles obj ∧
    (generateBinarySTL obj).records =
      (emittedTris obj).map (fun t => ⟨faceNormalDir t, t.a, t.b, t.c, 0⟩) ∧
    (generateBinarySTL obj).finalOffset = 84 + 50 * (emittedTris obj).length ∧
    (generateBinarySTL obj).allocSize = 84 + 50 * (2 * countTriangles obj) ∧
    ∀ op ∈ (generateBinarySTL obj).ops,
      op.pos + op.size ≤ (generateBinarySTL obj).finalOffset := by
  obtain ⟨hoff, hrec, δ, hops, hbound⟩ := foldWrite_spec (obj.flatMap Mesh.worldTris)
    (⟨84, ((List.range 80).map (fun i => (⟨i, 1⟩ : WriteOp))) ++ [⟨80, 4⟩], []⟩ : BinaryWriter)
  have hcf : (generateBinarySTL obj).countField = countTriangles obj := rfl
  have hfo : (generateBinarySTL obj).finalOffset =
      ((obj.flatMap Mesh.worldTris).foldl stepWrite
        (⟨84, ((List.range 80).map (fun i => (⟨i, 1⟩ : WriteOp))) ++ [⟨80, 4⟩], []⟩ :
          BinaryWriter)).offset := rfl
  have hrc : (generateBinarySTL obj).records =
      ((obj.flatMap Mesh.worldTris).foldl stepWrite
        (⟨84, ((List.range 80).map (fun i => (⟨i, 1⟩ : WriteOp))) ++ [⟨80, 4⟩], []⟩ :
          BinaryWriter)).records := rfl
  have hop : (generateBinarySTL obj).ops =
      ((obj.flatMap Mesh.worldTris).foldl stepWrite
        (⟨84, ((List.range 80).map (fun i => (⟨i, 1⟩ : WriteOp))) ++ [⟨80, 4⟩], []⟩ :
          BinaryWriter)).ops := rfl
  have halloc : (generateBinarySTL obj).allocSize =
      84 + 50 * (⌈((countTriangles obj : ℕ) : ℚ) * 2⌉).toNat := rfl
  have hceil : (⌈((countTriangles obj : ℕ) : ℚ) * 2⌉).toNat = 2 * countTriangles obj := by
    have hcast : ((countTriangles obj : ℕ) : ℚ) * 2 = ((2 * countTriangles obj : ℕ) : ℚ) := by
      push_cast
      ring
    rw [hcast, Int.ceil_natCast]
    omega
  have hfo2 : (generateBinarySTL obj).finalOffset = 84 + 50 * (emittedTris obj).length := by
    rw [hfo, hoff]
    rfl
  refine ⟨hcf, ?_, hfo2, ?_, ?_⟩
  · rw [hrc, hrec]
    rfl
  · rw [halloc, hceil]
  · intro op hmem
    rw [hop, hops] at hmem
    rw [hfo2]
    have h84 : 84 ≤ 84 + 50 * (emittedTris obj).length := Nat.le_add_right _ _
    rcases List.mem_append.mp hmem with h1 | h1
    · rcases List.mem_append.mp h1 with h2 | h2
      · obtain ⟨i, hi, rfl⟩ := List.mem_map.mp h2
        have hi80 : i < 80 := List.mem_range.mp hi
        show i + 1 ≤ 84 + 50 * (emittedTris obj).length
        omega
      · have hop2 : op = ⟨80, 4⟩ := by
          simpa using h2
        rw [hop2]
        show 80 + 4 ≤ 84 + 50 * (emittedTris obj).length
        omega
    · have hb := (hbound op h1).2
      rw [← hfo, hfo2] at hb
      exact hb

/-! ### C2 — binary STL count field, trimming and allocation -/

/-- A single degenerate triangle (all three vertices coincide) with the
identity world matrix. -/
def degObj : List Mesh :=
  [⟨BufferGeometry.nonIndexed [⟨0, 0, 0⟩, ⟨0, 0, 0⟩, ⟨0, 0, 0⟩], Affine.idTransform⟩]

theorem degObj_worldTris :
    degObj.flatMap Mesh.worldTris = [⟨⟨0, 0, 0⟩, ⟨0, 0, 0⟩, ⟨0, 0, 0⟩⟩] := by
  simp only [degObj, List.flatMap_cons, List.flatMap_nil, Mesh.worldTris,
    BufferGeometry.triangles, chunk3, List.map_cons, List.map_nil, List.append_nil,
    Affine.apply, Affine.idTransform]
  norm_num

theorem degTri_degenerate :
    (⟨⟨0, 0, 0⟩, ⟨0, 0, 0⟩, ⟨0, 0, 0⟩⟩ : Tri).degenerate = true := by
  simp only [Tri.degenerate, Vec3.sub, Vec3.cross, Vec3.lengthSq, decide_eq_true_eq]
  norm_num

theorem degObj_emitted_nil : emittedTris degObj = [] := by
  rw [emittedTris, degObj_worldTris]
  simp [degTri_degenerate]

/-- C2, as stated, is false: for the object consisting of one degenerate
triangle, the binary exporter writes 1 into the 4-byte count field (the
pre-skip estimate) while it emits 0 triangle records after skipping, so
the written count does not equal the post-skip record count. -/
theorem C2_counterexample :
    (generateBinarySTL degObj).countField = 1 ∧
    (generateBinarySTL degObj).records.length = 0 ∧
    (generateBinarySTL degObj).countField ≠ (generateBinarySTL degObj).records.length := by
  have h1 : (generateBinarySTL degObj).countField = 1 := by
    rw [(generateBinarySTL_spec degObj).1]
    simp [countTriangles, degObj, BufferGeometry.triCount]
  have h2 : (generateBinarySTL degObj).records.length = 0 := by
    rw [(generateBinarySTL_spec degObj).2.1, degObj_emitted_nil]
    rfl
  exact ⟨h1, h2, by rw [h1, h2]; omega⟩

/-- C2 amended: the 4-byte count field holds the pre-skip triangle count
(not the post-skip emitted count); the returned byte array has length
exactly 84 + 50 × (post-skip emitted count), the buffer is allocated with
a 2× safety margin over the pre-skip estimate
(84 + 50 × ceil(2 × pre-skip count) bytes) and trimmed to the exact
bytes written. -/
theorem C2_binary_layout (obj : List Mesh) :
    (generateBinarySTL obj).countField = countTriangles obj ∧
    (generateBinarySTL obj).records.length = (emittedTris obj).length ∧
    (generateBinarySTL obj).returnedLength = 84 + 50 * (emittedTris obj).length ∧
    (generateBinarySTL obj).allocSize = 84 + 50 * (2 * countTriangles obj) := by
  obtain ⟨hcf, hrec, hfo, halloc, hops⟩ := generateBinarySTL_spec obj
  have hle : (generateBinarySTL obj).finalOffset ≤ (generateBinarySTL obj).allocSize := by
    rw [hfo, halloc]
    have := emittedTris_length_le obj
    omega
  have hret : (generateBinarySTL obj).returnedLength = (generateBinarySTL obj).finalOffset :=
    min_eq_left hle
  refine ⟨hcf, ?_, ?_, halloc⟩
  · rw [hrec, List.length_map]
  · rw [hret, hfo]

/-! ### C10 — the writer never writes past the allocation -/

/-- C10: the binary writer never writes past the end of its allocated
buffer: the bytes written total 84 + 50 × (post-skip count), which is at
most 84 + 50 × (pre-skip count) and at most the allocated size
84 + 50 × ceil(2 × pre-skip count); every primitive DataView write lies
within the allocation; and the final slice(0, offset) is well-defined
(the returned length equals the final offset). -/
theorem C10_no_overflow (obj : List Mesh) :
    (generateBinarySTL obj).finalOffset ≤ 84 + 50 * countTriangles obj ∧
    (generateBinarySTL obj).finalOffset ≤ (generateBinarySTL obj).allocSize ∧
    ((generateBinarySTL obj).ops.all
      (fun op => decide (op.pos + op.size ≤ (generateBinarySTL obj).allocSize))) = true ∧
    (generateBinarySTL obj).returnedLength = (generateBinarySTL obj).finalOffset := by
  obtain ⟨hcf, hrec, hfo, halloc, hops⟩ := generateBinarySTL_spec obj
  have hle1 : (generateBinarySTL obj).finalOffset ≤ 84 + 50 * countTriangles obj := by
    rw [hfo]
    have := emittedTris_length_le obj
    omega
  have hle2 : (generateBinarySTL obj).finalOffset ≤ (generateBinarySTL obj).allocSize := by
    rw [hfo, halloc]
    have := emittedTris_length_le obj
    omega
  refine ⟨hle1, hle2, ?_, min_eq_left hle2⟩
  rw [List.all_eq_true]
  intro op hmem
  exact decide_eq_true (le_trans (hops op hmem) hle2)

/-! ### C6 — degenerate-triangle rules of the two formats -/

/-- C6, as stated, is false: the ASCII emitter applies no
degenerate-triangle skip. For the object consisting of one degenerate
triangle (cross-product squared magnitude 0 < 1e-10), the binary format
emits no record but the ASCII format emits one facet, so the triangle is
not skipped by both formats. -/
theorem C6_counterexample :
    (⟨⟨0, 0, 0⟩, ⟨0, 0, 0⟩, ⟨0, 0, 0⟩⟩ : Tri).degenerate = true ∧
    (generateBinarySTL degObj).records = [] ∧
    (generateASCIISTL degObj).length = 1 := by
  refine ⟨degTri_degenerate, ?_, ?_⟩
  · rw [(generateBinarySTL_spec degObj).2.1, degObj_emitted_nil]
    rfl
  · rw [generateASCIISTL, List.length_map, degObj_worldTris]
    rfl

/-- C6 amended: only the binary emitter skips triangles whose
edge-cross-product squared magnitude is below 1e-10 (it emits exactly the
non-degenerate triangles, each with normal direction cross(c−b, a−b),
normalization scaling it by a positive factor); the ASCII emitter writes
every triangle — including degenerate ones — with the same normal
formula and no skip. -/
theorem C6_skip_rules (obj : List Mesh) :
    (generateBinarySTL obj).records =
      ((obj.flatMap Mesh.worldTris).filter (fun t => !t.degenerate)).map
        (fun t => ⟨faceNormalDir t, t.a, t.b, t.c, 0⟩) ∧
    generateASCIISTL obj =
      (obj.flatMap Mesh.worldTris).map (fun t => ⟨faceNormalDir t, t.a, t.b, t.c⟩) ∧
    (generateASCIISTL obj).length = countTriangles obj := by
  refine ⟨(generateBinarySTL_spec obj).2.1, rfl, ?_⟩
  rw [generateASCIISTL, List.length_map, length_flatMap_worldTris]

/-!
## Batch Packager

No implementation of the Batch Packager exists under the sources (no
dedup, zip or manifest code); only the specification describes it
(DimensionSignature in §3, hashAndDedup/buildArchive in §4.5, the export
boundary in §6). The definitions below are therefore modelled from the
spec and are marked as such.
-/

/-- Modelled from the spec: the DimensionSignature — the derived key
(width, height, depth) rounded to integer mm (the same
round-half-up rule as the rest of the code base) used to group
structurally identical solids. The packager implementation is missing
from the sources. -/
def signature (b : CreateBoxResult) : ℤ × ℤ × ℤ :=
  (⌊b.dimensions.1 + 1 / 2⌋, ⌊b.dimensions.2.1 + 1 / 2⌋, ⌊b.dimensions.2.2 + 1 / 2⌋)

/-- Modelled from the spec: `hashAndDedup(solids) → Map<signature, solid[]>`
— group the solids by dimension signature; one group per distinct
signature, each group holding every solid with that signature. The
packager implementation is missing from the sources. -/
def hashAndDedup (solids : List CreateBoxResult) :
    List ((ℤ × ℤ × ℤ) × List CreateBoxResult) :=
  (solids.map signature).dedup.map
    (fun s => (s, solids.filter (fun b => decide (signature b = s))))

/-- Modelled from the spec: the archive — one STL entry per unique
signature (named by its dimensions, holding the serialized
representative), a manifest line mapping every original solid to its
representative file, and a per-signature occurrence count. The packager
implementation is missing from the sources. -/
structure Archive where
  stlEntries : List ((ℤ × ℤ × ℤ) × Option CreateBoxResult)
  manifest : List (CreateBoxResult × (ℤ × ℤ × ℤ))
  counts : List ((ℤ × ℤ × ℤ) × ℕ)
deriving Repr, DecidableEq

/-- Modelled from the spec: `buildArchive(groups, exporter) → archiveBytes`
— serialize the first solid of each group as that signature's STL entry,
list every original solid against its signature file in the manifest, and
record each group's occurrence count. The packager implementation is
missing from the sources. -/
def buildArchive (solids : List CreateBoxResult) : Archive :=
  let groups := hashAndDedup solids
  { stlEntries := groups.map (fun g => (g.1, g.2.head?))
    manifest := solids.map (fun b => (b, signature b))
    counts := groups.map (fun g => (g.1, g.2.length)) }

/-! ### C4 — dedup correctness (spec-modelled) -/

/-- C4 (spec-modelled): for every collection of N solids with K distinct
rounded-integer dimension signatures, the archive holds exactly K STL
entries with pairwise distinct signature names, each entry carrying a
representative solid of that very signature; the manifest lists all N
original solids in order, each mapped to the name of an existing STL
entry (its own signature); and the per-signature occurrence counts are
the exact multiplicities, summing to N. -/
theorem C4_batch_dedup (solids : List CreateBoxResult) :
    (buildArchive solids).stlEntries.length = (solids.map signature).dedup.length ∧
    ((buildArchive solids).stlEntries.map Prod.fst).Nodup ∧
    (∀ e ∈ (buildArchive solids).stlEntries,
      ∃ b, e.2 = some b ∧ b ∈ solids ∧ signature b = e.1) ∧
    (buildArchive solids).manifest.map Prod.fst = solids ∧
    (∀ m ∈ (buildArchive solids).manifest,
      m.2 = signature m.1 ∧ m.2 ∈ (buildArchive solids).stlEntries.map Prod.fst) ∧
    (∀ ce ∈ (buildArchive solids).counts,
      ce.2 = (solids.filter (fun b => decide (signature b = ce.1))).length) ∧
    ((buildArchive solids).counts.map Prod.snd).sum = solids.length := by
  have hnames : (buildArchive solids).stlEntries.map Prod.fst =
      (solids.map signature).dedup := by
    simp [buildArchive, hashAndDedup, List.map_map, Function.comp_def]
  refine ⟨?_, ?_, ?_, ?_, ?_, ?_, ?_⟩
  · simp [buildArchive, hashAndDedup]
  · rw [hnames]
    exact List.nodup_dedup _
  · intro e he
    simp only [buildArchive, hashAndDedup, List.map_map, List.mem_map,
      Function.comp] at he
    obtain ⟨s, hs, rfl⟩ := he
    have hsmem : s ∈ solids.map signature := (List.mem_dedup).mp hs
    obtain ⟨b, hb, hbs⟩ := List.mem_map.mp hsmem
    have hbf : b ∈ solids.filter (fun b => decide (signature b = s)) :=
      List.mem_filter.mpr ⟨hb, decide_eq_true hbs⟩
    cases hfil : solids.filter (fun b => decide (signature b = s)) with
    | nil =>
      rw [hfil] at hbf
      exact absurd hbf (List.not_mem_nil b)
    | cons b0 rest =>
      refine ⟨b0, by simp [hfil], ?_, ?_⟩
      · have : b0 ∈ solids.filter (fun b => decide (signature b = s)) := by
          rw [hfil]
          exact List.mem_cons_self b0 rest
        exact (List.mem_filter.mp this).1
      · have : b0 ∈ solids.filter (fun b => decide (signature b = s)) := by
          rw [hfil]
          exact List.mem_cons_self b0 rest
        exact of_decide_eq_true (List.mem_filter.mp this).2
  · simp [buildArchive, List.map_map, Function.comp_def]
  · intro m hm
    simp only [buildArchive, List.mem_map] at hm
    obtain ⟨b, hb, rfl⟩ := hm
    refine ⟨rfl, ?_⟩
    rw [hnames]
    exact List.mem_dedup.mpr (List.mem_map_of_mem signature hb)
  · intro ce hce
    simp only [buildArchive, hashAndDedup, List.map_map, List.mem_map,
      Function.comp] at hce
    obtain ⟨s, hs, rfl⟩ := hce
    rfl
  · have hsnd : (buildArchive solids).counts.map Prod.snd =
        (solids.map signature).dedup.map
          (fun s => (solids.filter (fun b => decide (signature b = s))).length) := by
      simp [buildArchive, hashAndDedup, List.map_map, Function.comp_def]
    have hsum := List.sum_map_count_dedup_eq_length (solids.map signature)
    have hpoint : ∀ x ∈ (solids.map signature).dedup,
        @List.count _ instBEqOfDecidableEq x (solids.map signature) =
          (solids.filter (fun b => decide (signature b = x))).length := by
      intro x _
      rw [← List.countP_eq_length_filter,
        @List.count_eq_countP _ instBEqOfDecidableEq x (solids.map signature),
        List.countP_map]
      rfl
    rw [List.map_congr_left hpoint] at hsum
    rw [hsnd, hsum, List.length_map]

/-- Three demo solids with two distinct signatures, for the C4 witness. -/
def demoSolids : List CreateBoxResult :=
  [createBox 0 0 0 10 10 10 (some 2) 0 false,
    createBox 0 0 0 10 10 10 (some 2) 0 false,
    createBox 0 0 0 20 10 10 (some 2) 0 false]

/-- Witness for C4_batch_dedup: 3 solids with 2 distinct signatures give
exactly 2 STL entries and counts summing to 3. -/
theorem C4_witness :
    (buildArchive demoSolids).stlEntries.length = 2 ∧
    ((buildArchive demoSolids).counts.map Prod.snd).sum = 3 := by
  have h := C4_batch_dedup demoSolids
  have hsig1 : signature (createBox 0 0 0 10 10 10 (some 2) 0 false) = (10, 10, 10) := by
    simp only [signature, createBox_dimensions]
    norm_num [Int.floor_eq_iff]
  have hsig3 : signature (createBox 0 0 0 20 10 10 (some 2) 0 false) = (20, 10, 10) := by
    simp only [signature, createBox_dimensions]
    norm_num [Int.floor_eq_iff]
  have hdedup : (demoSolids.map signature).dedup = [(10, 10, 10), (20, 10, 10)] := by
    simp only [demoSolids, List.map_cons, List.map_nil, hsig1, hsig3]
    rw [List.dedup_cons_of_mem (by decide), List.dedup_cons_of_not_mem (by decide),
      List.dedup_cons_of_not_mem (by decide), List.dedup_nil]
  constructor
  · rw [h.1, hdedup]
    rfl
  · rw [h.2.2.2.2.2.2]
    rfl

end PrintBox
